import Mathlib

/-!
Shallow embedding of `src/src/main.py` (RandomKiddo/Blockchain): a minimal
blockchain with a pending-transaction pool, SHA-256 proof-of-work, chain
validation, and longest-chain conflict resolution, served over Flask.

Python dynamic values are modelled by the inductive type `PyVal`; methods
that can raise are modelled in `Except String`, with the Python exception
class name as the error payload.  `hashlib.sha256(...)` returns a *hash
object* (the code never calls `.hexdigest()` on block hashes); hash objects
compare by identity in Python, which we model by tagging each freshly
created object with a gensym counter threaded through the state.
-/

set_option maxRecDepth 10000

/-! ## SHA-256 over byte lists (hashlib.sha256), 32-bit words as `Nat % 2^32` -/

def add32 (a b : Nat) : Nat := (a + b) % 4294967296

def rotr32 (n x : Nat) : Nat := ((x >>> n) ||| (x <<< (32 - n))) % 4294967296

def bsig0 (x : Nat) : Nat := (rotr32 2 x) ^^^ (rotr32 13 x) ^^^ (rotr32 22 x)

def bsig1 (x : Nat) : Nat := (rotr32 6 x) ^^^ (rotr32 11 x) ^^^ (rotr32 25 x)

def ssig0 (x : Nat) : Nat := (rotr32 7 x) ^^^ (rotr32 18 x) ^^^ (x >>> 3)

def ssig1 (x : Nat) : Nat := (rotr32 17 x) ^^^ (rotr32 19 x) ^^^ (x >>> 10)

def ch32 (x y z : Nat) : Nat := (x &&& y) ^^^ ((x ^^^ 4294967295) &&& z)

def maj32 (x y z : Nat) : Nat := (x &&& y) ^^^ (x &&& z) ^^^ (y &&& z)

/-- The 64 SHA-256 round constants (FIPS 180-4), in decimal. -/
def sha256K : List Nat :=
  [ 1116352408, 1899447441, 3049323471, 3921009573,
    961987163, 1508970993, 2453635748, 2870763221,
    3624381080, 310598401, 607225278, 1426881987,
    1925078388, 2162078206, 2614888103, 3248222580,
    3835390401, 4022224774, 264347078, 604807628,
    770255983, 1249150122, 1555081692, 1996064986,
    2554220882, 2821834349, 2952996808, 3210313671,
    3336571891, 3584528711, 113926993, 338241895,
    666307205, 773529912, 1294757372, 1396182291,
    1695183700, 1986661051, 2177026350, 2456956037,
    2730485921, 2820302411, 3259730800, 3345764771,
    3516065817, 3600352804, 4094571909, 275423344,
    430227734, 506948616, 659060556, 883997877,
    958139571, 1322822218, 1537002063, 1747873779,
    1955562222, 2024104815, 2227730452, 2361852424,
    2428436474, 2756734187, 3204031479, 3329325298 ]

/-- The SHA-256 initial hash state (FIPS 180-4), in decimal. -/
def sha256H0 : List Nat :=
  [ 1779033703, 3144134277, 1013904242, 2773480762,
    1359893119, 2600822924, 528734635, 1541459225 ]

/-- Big-endian byte expansion of `v` over `n` bytes. -/
def beBytes (n v : Nat) : List Nat :=
  (List.range n).map (fun i => (v >>> (8 * (n - 1 - i))) % 256)

/-- SHA-256 padding: append 0x80, zero bytes to 56 mod 64, then the 64-bit
big-endian bit length. -/
def sha256pad (msg : List Nat) : List Nat :=
  let L := msg.length
  let k := (119 - (L % 64)) % 64
  msg ++ [128] ++ List.replicate k 0 ++ beBytes 8 (L * 8)

/-- Pack bytes (big-endian) into 32-bit words. -/
def toWords : List Nat → List Nat
  | a :: b :: c :: d :: rest => (((a * 256 + b) * 256 + c) * 256 + d) :: toWords rest
  | _ => []

def wget (w : List Nat) (i : Nat) : Nat := w.getD i 0

/-- One step of the message-schedule extension. -/
def schedStep (w : List Nat) : List Nat :=
  let n := w.length
  w ++ [add32 (add32 (ssig1 (wget w (n - 2))) (wget w (n - 7)))
              (add32 (ssig0 (wget w (n - 15))) (wget w (n - 16)))]

/-- Extend the 16 block words to the 64-word schedule. -/
def fullSched (w16 : List Nat) : List Nat :=
  (List.range 48).foldl (fun w _ => schedStep w) w16

/-- One round of the compression function; state is the 8-word working list. -/
def compress1 (st : List Nat) (kw : Nat × Nat) : List Nat :=
  match st with
  | [a, b, c, d, e, f, g, h] =>
    let t1 := add32 (add32 (add32 h (bsig1 e)) (add32 (ch32 e f g) kw.1)) kw.2
    let t2 := add32 (bsig0 a) (maj32 a b c)
    [add32 t1 t2, a, b, c, add32 d t1, e, f, g]
  | _ => st

/-- Compress one 16-word block into the hash state. -/
def compressBlock (h : List Nat) (block : List Nat) : List Nat :=
  let st := ((sha256K.zip (fullSched block)).foldl compress1 h)
  (h.zip st).map (fun p => add32 p.1 p.2)

/-- Split a byte list into 64-byte blocks (structural recursion on a fuel
bound, so the definition reduces in the kernel; the fuel `l.length` always
suffices since each step consumes 64 bytes). -/
def toBlocksAux : Nat → List Nat → List (List Nat)
  | 0, _ => []
  | _, [] => []
  | fuel + 1, x :: rest => ((x :: rest).take 64) :: toBlocksAux fuel ((x :: rest).drop 64)

def toBlocks (l : List Nat) : List (List Nat) := toBlocksAux l.length l

/-- SHA-256 digest of a byte list, as the 8-word hash state. -/
def sha256Words (msg : List Nat) : List Nat :=
  (toBlocks (sha256pad msg)).foldl (fun h b => compressBlock h (toWords b)) sha256H0

def hexChar (n : Nat) : Char := if n < 10 then Char.ofNat (48 + n) else Char.ofNat (87 + n)

def word2hex (w : Nat) : List Char :=
  (List.range 8).map (fun i => hexChar ((w >>> (4 * (7 - i))) % 16))

/-- `hashlib.sha256(bytes).hexdigest()`. -/
def sha256hexdigest (msg : List Nat) : String :=
  String.mk ((sha256Words msg).foldr (fun w acc => word2hex w ++ acc) [])

/-- `.encode()` of an ASCII string: its bytes. -/
def strBytes (s : String) : List Nat := s.data.map Char.toNat

/-! ## Python dynamic values -/

/-- Python values as they occur in this program.  `hashObj i` is a
`hashlib.sha256` *object* (what `Blockchain.hash` actually returns, since the
source never calls `.hexdigest()` on it); `i` is its identity, since hashlib
objects define no `__eq__` and therefore compare by object identity. -/
inductive PyVal where
  | int : Int → PyVal
  | str : String → PyVal
  | none : PyVal
  | list : List PyVal → PyVal
  | dict : List (String × PyVal) → PyVal
  | hashObj : Nat → PyVal

/-- First value bound to key `k` in a dict (Python dicts have unique keys). -/
def lookupKey (k : String) : List (String × PyVal) → Option PyVal
  | [] => Option.none
  | (k2, v) :: rest => if k == k2 then some v else lookupKey k rest

/-- Python `==`, fuel-indexed so the recursion is structural on the fuel and
reduces in the kernel.  Only the recursive cases (lists, dicts) consume fuel;
`pyEq` below supplies fuel bounding the nesting depth, so the fuel-exhausted
branch is never taken on actual values. -/
def pyEqF (fuel : Nat) : PyVal → PyVal → Bool
  | .int x, .int y => x == y
  | .str x, .str y => x == y
  | .none, .none => true
  | .hashObj i, .hashObj j => i == j
  | .list xs, .list ys =>
      (match fuel with
       | 0 => false
       | f + 1 => xs.length == ys.length && (xs.zip ys).all fun p => pyEqF f p.1 p.2)
  | .dict xs, .dict ys =>
      (match fuel with
       | 0 => false
       | f + 1 => xs.length == ys.length && xs.all fun kv =>
           match lookupKey kv.1 ys with
           | some v => pyEqF f kv.2 v
           | Option.none => false)
  | _, _ => false

/-- Python `==`.  The fuel `2^64` exceeds the nesting depth of any value a
program can build, so the fuel-exhausted branch is unreachable; moreover the
only `==`/`!=` the source performs on `PyVal`s has a freshly created hash
object as right operand, for which `pyEqF` ignores the fuel entirely. -/
def pyEq (a b : PyVal) : Bool := pyEqF 18446744073709551616 a b

/-- Python truthiness (`or`, `if`): zero, empty containers and None are falsy. -/
def pyTruthy : PyVal → Bool
  | .none => false
  | .int i => !(i == 0)
  | .str s => !(s == "")
  | .list l => !l.isEmpty
  | .dict d => !d.isEmpty
  | .hashObj _ => true

/-- Python `str()` as used by the f-string in `valid_proof`.  The program only
ever formats ints there (proof values); the container cases are approximated
and are never reached by the theorems below. -/
def pyFormat : PyVal → String
  | .int i => toString i
  | .str s => s
  | .none => "None"
  | .list _ => "object"
  | .dict _ => "object"
  | .hashObj _ => "object"

/-- `d[k]` on a Python value: KeyError for a missing key, TypeError when the
value is not a dict (the program only ever indexes dicts with string keys). -/
def pyGetItem (v : PyVal) (k : String) : Except String PyVal :=
  match v with
  | .dict entries =>
      match lookupKey k entries with
      | some x => Except.ok x
      | Option.none => Except.error "KeyError"
  | _ => Except.error "TypeError"

/-- Minimal JSON string escaping (backslash and quote); the strings this
program serializes contain neither, so this matches `json.dumps`. -/
def jsonEscape (s : String) : String :=
  String.mk (s.data.foldr
    (fun c acc =>
      if c == '\\' then '\\' :: '\\' :: acc
      else if c == '"' then '\\' :: '"' :: acc
      else c :: acc) [])

/-- Lexicographic order on code points, as Python compares strings. -/
def charListLt : List Char → List Char → Bool
  | [], [] => false
  | [], _ :: _ => true
  | _ :: _, [] => false
  | a :: as, b :: bs =>
      if a.toNat < b.toNat then true
      else if b.toNat < a.toNat then false
      else charListLt as bs

def strLtB (a b : String) : Bool := charListLt a.data b.data

/-- Insertion step for sorting dict entries by key (`sort_keys=True`). -/
def insertByKey (p : String × PyVal) : List (String × PyVal) → List (String × PyVal)
  | [] => [p]
  | q :: rest => if strLtB p.1 q.1 then p :: q :: rest else q :: insertByKey p rest

def sortByKey (l : List (String × PyVal)) : List (String × PyVal) :=
  l.foldr insertByKey []

def joinComma : List String → String
  | [] => ""
  | [s] => s
  | s :: rest => s ++ ", " ++ joinComma rest

/-- `json.dumps(v, sort_keys=True)`, fuel-indexed like `pyEqF`.  A sha256
hash object is not JSON serializable: TypeError.  (`json.dumps` separates
items with ", " and keys with ": " by default.) -/
def jsonDumpsF (fuel : Nat) : PyVal → Except String String
  | .int i => Except.ok (toString i)
  | .str s => Except.ok ("\"" ++ jsonEscape s ++ "\"")
  | .none => Except.ok "null"
  | .hashObj _ => Except.error "TypeError"
  | .list xs =>
      (match fuel with
       | 0 => Except.error "TypeError"
       | f + 1 => do
           let parts ← xs.mapM (jsonDumpsF f)
           Except.ok ("[" ++ joinComma parts ++ "]"))
  | .dict xs =>
      (match fuel with
       | 0 => Except.error "TypeError"
       | f + 1 => do
           let parts ← (sortByKey xs).mapM (fun kv => do
             let v ← jsonDumpsF f kv.2
             Except.ok ("\"" ++ jsonEscape kv.1 ++ "\": " ++ v))
           Except.ok ("\x7b" ++ joinComma parts ++ "\x7d"))

/-- `json.dumps(v, sort_keys=True)`.  As with `pyEq`, the fuel `2^64` exceeds
the nesting depth of any value a program can build, so the fuel-exhausted
branch is unreachable on actual values. -/
def jsonDumps (v : PyVal) : Except String String := jsonDumpsF 18446744073709551616 v

/-! ## urllib.parse.urlparse, netloc component only -/

/-- Valid characters of a URL scheme after the first (letters, digits, `+`,
`-`, `.`), as in CPython urllib. -/
def isSchemeChar (c : Char) : Bool :=
  c.isAlpha || c.isDigit || c == '+' || c == '-' || c == '.'

/-- A nonempty run of scheme characters starting with a letter. -/
def validScheme : List Char → Bool
  | [] => false
  | c :: rest => c.isAlpha && rest.all isSchemeChar

/-- The authority part: present only when the (scheme-stripped) URL starts
with `//`, and extends to the next `/`, `?` or `#`. -/
def netlocOf : List Char → List Char
  | '/' :: '/' :: r => r.takeWhile (fun c => !(c == '/') && !(c == '?') && !(c == '#'))
  | _ => []

/-- `urlparse(address).netloc` as CPython computes it: split off a valid
`scheme:` prefix if present, then extract the `//`-delimited authority;
an address with no `//` (e.g. `localhost:5000`, where `localhost` parses
as the scheme) has an empty netloc. -/
def urlparseNetloc (address : String) : String :=
  let cs := address.data
  let before := cs.takeWhile (fun c => !(c == ':'))
  let rest :=
    if before.length < cs.length && validScheme before
    then cs.drop (before.length + 1) else cs
  String.mk (netlocOf rest)

/-! ## The Blockchain class (src/src/main.py lines 11-152) -/

/-- The mutable state of a `Blockchain` instance, plus two modelling
counters: `counter` is the gensym supply for hash-object identities, and
`clock` models `time.time()` (each call returns the current tick and
advances it; the concrete values are irrelevant, only that blocks receive
*some* timestamp).  `nodes` is the Python set `self.nodes`, modelled as a
deduplicated list in insertion order. -/
structure BCState where
  current_transactions : List PyVal
  chain : List PyVal
  nodes : List String
  counter : Nat
  clock : Nat

namespace Blockchain

/-- `Blockchain.hash` (lines 58-66): `hashlib.sha256(json.dumps(block,
sort_keys=True).encode())`.  Serialization raises TypeError when the block
contains a hash object; otherwise the result is a *fresh* sha256 object —
the source returns it without calling `.hexdigest()`, so the digest string
is never produced and the returned object compares by identity. -/
def hash (block : PyVal) (ctr : Nat) : Except String (PyVal × Nat) :=
  match jsonDumps block with
  | Except.error e => Except.error e
  | Except.ok _block_string => Except.ok (PyVal.hashObj ctr, ctr + 1)

/-- The expression `previous_hash or self.hash(self.chain[-1])` from line 31:
Python `or` short-circuits, so the hash of the last block is computed only
when the supplied `previous_hash` is falsy; `self.chain[-1]` raises
IndexError on an empty chain. -/
def prevHashOf (previous_hash : PyVal) (st : BCState) : Except String (PyVal × Nat) :=
  if pyTruthy previous_hash then Except.ok (previous_hash, st.counter)
  else
    match st.chain.getLast? with
    | Option.none => Except.error "IndexError"
    | some last => hash last st.counter

/-- The block dict literal of lines 26-32: index `len(chain)+1`, the
current time, the pending transactions, the given proof and previous hash,
in the source's insertion order. -/
def mkBlock (st : BCState) (proof ph : PyVal) : PyVal := PyVal.dict
  [("index", PyVal.int (st.chain.length + 1)),
   ("timestamp", PyVal.int st.clock),
   ("transactions", PyVal.list st.current_transactions),
   ("proof", proof),
   ("previous_hash", ph)]

/-- The state after lines 34-35: pending pool cleared, block appended; the
gensym counter and clock advance as consumed. -/
def postState (st : BCState) (block : PyVal) (ctr : Nat) : BCState :=
  { current_transactions := []
    chain := st.chain ++ [block]
    nodes := st.nodes
    counter := ctr
    clock := st.clock + 1 }

/-- `Blockchain.new_block` (lines 19-37): build the block dict, clear the
pending pool, append the block, return it. -/
def new_block (proof previous_hash : PyVal) (st : BCState) : Except String (PyVal × BCState) :=
  match prevHashOf previous_hash st with
  | Except.error e => Except.error e
  | Except.ok (ph, ctr) => Except.ok (mkBlock st proof ph, postState st (mkBlock st proof ph) ctr)

/-- The transaction dict of lines 47-51. -/
def txDict (sender recipient amount : PyVal) : PyVal :=
  PyVal.dict [("sender", sender), ("recipient", recipient), ("amount", amount)]

/-- The state after line 47: the transaction dict appended to the pool. -/
def pendingAdd (st : BCState) (sender recipient amount : PyVal) : BCState :=
  { st with current_transactions :=
    st.current_transactions ++ [txDict sender recipient amount] }

/-- `Blockchain.new_transaction` (lines 39-53): appends the transaction dict
to `current_transactions` and returns `self.last_block['index'] + 1`
(IndexError on an empty chain, TypeError if the index is not a number). -/
def new_transaction (sender recipient amount : PyVal) (st : BCState) :
    Except String (Int × BCState) :=
  let st1 := pendingAdd st sender recipient amount
  match st1.chain.getLast? with
  | Option.none => Except.error "IndexError"
  | some last =>
      match pyGetItem last "index" with
      | Except.error e => Except.error e
      | Except.ok (PyVal.int i) => Except.ok (i + 1, st1)
      | Except.ok _ => Except.error "TypeError"

def emptyState : BCState :=
  { current_transactions := [], chain := [], nodes := [], counter := 0, clock := 0 }

/-- `Blockchain.__init__` (lines 12-17): empty pool, empty chain, empty peer
set, then `self.new_block(proof=100, previous_hash=1)` creates the genesis
block. -/
def init : Except String BCState :=
  Except.map Prod.snd (new_block (PyVal.int 100) (PyVal.int 1) emptyState)

/-- `Blockchain.valid_proof` (lines 82-92): sha256 of the concatenated
decimal representations, first four hex characters must be "0000". -/
def valid_proof (last_proof proof : PyVal) : Bool :=
  let guess := strBytes (pyFormat last_proof ++ pyFormat proof)
  let guess_hash := sha256hexdigest guess
  (guess_hash.take 4) == "0000"

/-- `Blockchain.proof_of_work` (lines 68-80): `proof = 0; while not
self.valid_proof(last_proof, proof): proof += 1; return proof` — i.e. the
least natural number satisfying the predicate.  The loop terminates exactly
when some proof exists, which the hypothesis `h` records. -/
def proof_of_work (last_proof : PyVal)
    (h : ∃ p : Nat, valid_proof last_proof (PyVal.int (p : Int)) = true) : Nat :=
  Nat.find h

/-- `Blockchain.register_node` (lines 94-103):
`self.nodes.add(urlparse(address).netloc)`. -/
def register_node (address : String) (st : BCState) : BCState :=
  let n := urlparseNetloc address
  if st.nodes.contains n then st else { st with nodes := st.nodes ++ [n] }

/-- The loop of `Blockchain.valid_chain` (lines 114-123), carrying
`last_block` and the remaining suffix of the chain.  Evaluation order as in
the source: `block['previous_hash']` is read (KeyError possible), then
`self.hash(last_block)` is computed (TypeError possible), then compared;
only if they are equal are the two `proof` fields read and checked. -/
def valid_chain_loop : PyVal → List PyVal → Nat → Except String (Bool × Nat)
  | _, [], ctr => Except.ok (true, ctr)
  | last_block, block :: rest, ctr =>
      match pyGetItem block "previous_hash" with
      | Except.error e => Except.error e
      | Except.ok ph =>
          match hash last_block ctr with
          | Except.error e => Except.error e
          | Except.ok (h, ctr1) =>
              if !(pyEq ph h) then Except.ok (false, ctr1)
              else
                match pyGetItem last_block "proof" with
                | Except.error e => Except.error e
                | Except.ok lp =>
                    match pyGetItem block "proof" with
                    | Except.error e => Except.error e
                    | Except.ok bp =>
                        if !(valid_proof lp bp) then Except.ok (false, ctr1)
                        else valid_chain_loop block rest ctr1

/-- `Blockchain.valid_chain` (lines 105-125): `last_block = chain[0]` raises
IndexError on an empty list, then the loop above. -/
def valid_chain (chain : List PyVal) (ctr : Nat) : Except String (Bool × Nat) :=
  match chain with
  | [] => Except.error "IndexError"
  | b0 :: rest => valid_chain_loop b0 rest ctr

end Blockchain

/-! ## Conflict resolution (lines 127-152) and the mine endpoint -/

/-- The outcome of `requests.get(http://node/chain)`: either the call raised
(connection error, timeout, ...) or it returned a response with a status
code and a JSON body (`response.json()`). -/
inductive FetchResult where
  | exn : String → FetchResult
  | resp : Nat → PyVal → FetchResult

namespace Blockchain

/-- The `for node in neighbors` loop of `resolve_conflicts` (lines 137-146),
carrying `max_length` and `new_chain`.  A raised `requests.get` is not
caught anywhere in the function, so it propagates; a response with a
non-200 status code is skipped; `length > max_length and
self.valid_chain(chain)` short-circuits, so the chain is only validated
when the reported length wins. -/
def resolve_loop (fetch : String → FetchResult) :
    List String → Nat → Int → Option (List PyVal) → Except String (Int × Option (List PyVal) × Nat)
  | [], ctr, maxLen, newChain => Except.ok (maxLen, newChain, ctr)
  | node :: rest, ctr, maxLen, newChain =>
      match fetch node with
      | FetchResult.exn e => Except.error e
      | FetchResult.resp status body =>
          if status == 200 then do
            let lengthV ← pyGetItem body "length"
            let chainV ← pyGetItem body "chain"
            let len ← match lengthV with
              | PyVal.int i => Except.ok i
              | _ => Except.error "TypeError"
            if maxLen < len then do
              let chainL ← match chainV with
                | PyVal.list l => Except.ok l
                | _ => Except.error "TypeError"
              let (ok, ctr1) ← valid_chain chainL ctr
              if ok then resolve_loop fetch rest ctr1 len (some chainL)
              else resolve_loop fetch rest ctr1 maxLen newChain
            else resolve_loop fetch rest ctr maxLen newChain
          else resolve_loop fetch rest ctr maxLen newChain

/-- `Blockchain.resolve_conflicts` (lines 127-152), with the HTTP transport
injected as `fetch`.  `max_length` starts at `len(self.chain)`; after the
loop, `if new_chain:` is Python truthiness, so a (unreachable in practice)
empty adopted chain would count as no replacement. -/
def resolve_conflicts (fetch : String → FetchResult) (st : BCState) :
    Except String (Bool × BCState) := do
  let (_, newChain, ctr1) ← resolve_loop fetch st.nodes st.counter (st.chain.length : Int) Option.none
  match newChain with
  | some c =>
      if !c.isEmpty then Except.ok (true, { st with chain := c, counter := ctr1 })
      else Except.ok (false, { st with counter := ctr1 })
  | Option.none => Except.ok (false, { st with counter := ctr1 })

/-- The `/min` route handler `mine` (lines 158-179).  Its first statement
reads the global name `block_chain`, which is defined nowhere (the global
instance is named `blockchain`), so every call raises NameError before
touching any state; line 169 additionally reads the undefined name
`previous_hast`.  (The route decorator also passes `method=` instead of
`methods=`.)  Modelled accordingly: the handler fails and the state is
untouched. -/
def mine (_st : BCState) : Except String (PyVal × BCState) :=
  Except.error "NameError: name block_chain is not defined"

end Blockchain

/-! ## Derived definitions used by the theorems -/

/-- The genesis block produced by `Blockchain.__init__`: index 1, the
constructor's timestamp (clock tick 0), no transactions, `proof=100`,
`previous_hash=1`. -/
def genesisBlock : PyVal := PyVal.dict
  [("index", PyVal.int 1),
   ("timestamp", PyVal.int 0),
   ("transactions", PyVal.list []),
   ("proof", PyVal.int 100),
   ("previous_hash", PyVal.int 1)]

/-- The state of a freshly constructed `Blockchain()`. -/
def initState : BCState :=
  { current_transactions := [], chain := [genesisBlock], nodes := [], counter := 0, clock := 1 }

/-- Whether a value is a hashlib hash object. -/
def isHashObj : PyVal → Bool
  | PyVal.hashObj _ => true
  | _ => false

/-- States reachable from a fresh `Blockchain()` by the ledger mutators
`new_block` and `new_transaction` (successful calls only — a raising call
leaves no new state). -/
inductive Reachable : BCState → Prop
  | boot : ∀ st, Blockchain.init = Except.ok st → Reachable st
  | block : ∀ st p ph b st', Reachable st →
      Blockchain.new_block p ph st = Except.ok (b, st') → Reachable st'
  | tx : ∀ st s r a i st', Reachable st →
      Blockchain.new_transaction s r a st = Except.ok (i, st') → Reachable st'

/-- A well-formed singleton peer chain: one block (any dict passes
`valid_chain` for a one-element chain, since the loop body never runs). -/
def peerBlock : PyVal := PyVal.dict
  [("index", PyVal.int 1),
   ("timestamp", PyVal.int 0),
   ("transactions", PyVal.list []),
   ("proof", PyVal.int 99),
   ("previous_hash", PyVal.str "x")]

/-- A peer response body whose reported `length` (2) exceeds the local chain
length while its `chain` holds a single block. -/
def goodBody : PyVal :=
  PyVal.dict [("length", PyVal.int 2), ("chain", PyVal.list [peerBlock])]

/-- Fresh node that registered two peers, the first of which is down. -/
def c5state : BCState := { initState with nodes := ["badpeer", "goodpeer"] }

/-- A transport where `badpeer` raises a connection error and every other
peer serves `goodBody` with status 200. -/
def c5fetch : String → FetchResult := fun node =>
  if node == "badpeer" then FetchResult.exn "requests.exceptions.ConnectionError"
  else FetchResult.resp 200 goodBody

/-- A transport where `badpeer` instead answers with HTTP status 503. -/
def c5fetchHttp : String → FetchResult := fun node =>
  if node == "badpeer" then FetchResult.resp 503 PyVal.none
  else FetchResult.resp 200 goodBody

/-- Fresh node that registered a single peer. -/
def c9state : BCState := { initState with nodes := ["peer"] }

/-- A peer response reporting `length` 5 while shipping a chain of one
block (no more blocks than the local chain). -/
def c9body : PyVal :=
  PyVal.dict [("length", PyVal.int 5), ("chain", PyVal.list [peerBlock])]

def c9fetch : String → FetchResult := fun _ => FetchResult.resp 200 c9body

/-! ## Helper lemmas -/

theorem pendingAdd_chain (st : BCState) (s r a : PyVal) :
    (Blockchain.pendingAdd st s r a).chain = st.chain := rfl

/-- Comparing any non-hash-object value to a hash object with `==` is
`False` (Python falls back to identity, and the types differ). -/
theorem pyEq_of_not_hashObj {v : PyVal} (i : Nat) (h : isHashObj v = false) :
    pyEq v (PyVal.hashObj i) = false := by
  cases v with
  | hashObj j => simp [isHashObj] at h
  | int x => rfl
  | str s => rfl
  | none => rfl
  | list l => rfl
  | dict d => rfl

/-- When `Blockchain.hash` succeeds it returns exactly the fresh hash
object for the current counter. -/
theorem hash_ok {b : PyVal} {c : Nat} {v : PyVal} {c' : Nat}
    (h : Blockchain.hash b c = Except.ok (v, c')) :
    v = PyVal.hashObj c ∧ c' = c + 1 := by
  unfold Blockchain.hash at h
  cases hj : jsonDumps b with
  | error e => rw [hj] at h; exact Except.noConfusion h
  | ok s =>
      rw [hj] at h
      simp only [Except.ok.injEq, Prod.mk.injEq] at h
      exact ⟨h.1.symm, h.2.symm⟩

/-- A truthy `previous_hash` short-circuits the `or`. -/
theorem prevHashOf_truthy {ph : PyVal} {st : BCState} (ht : pyTruthy ph = true) :
    Blockchain.prevHashOf ph st = Except.ok (ph, st.counter) := by
  simp [Blockchain.prevHashOf, ht]

/-- A falsy `previous_hash` makes `new_block` hash the last block. -/
theorem prevHashOf_falsy {ph : PyVal} {st : BCState} {last : PyVal}
    (hf : pyTruthy ph = false) (hlast : st.chain.getLast? = some last) :
    Blockchain.prevHashOf ph st = Blockchain.hash last st.counter := by
  simp [Blockchain.prevHashOf, hf, hlast]

/-- Inversion for a successful `new_block`. -/
theorem new_block_ok {p ph : PyVal} {st : BCState} {b : PyVal} {st' : BCState}
    (h : Blockchain.new_block p ph st = Except.ok (b, st')) :
    ∃ phv ctr, Blockchain.prevHashOf ph st = Except.ok (phv, ctr) ∧
      b = Blockchain.mkBlock st p phv ∧ st' = Blockchain.postState st b ctr := by
  unfold Blockchain.new_block at h
  cases hE : Blockchain.prevHashOf ph st with
  | error e => rw [hE] at h; exact Except.noConfusion h
  | ok pr =>
      obtain ⟨phv, ctr⟩ := pr
      rw [hE] at h
      have h2 : (Except.ok (Blockchain.mkBlock st p phv,
          Blockchain.postState st (Blockchain.mkBlock st p phv) ctr) :
          Except String (PyVal × BCState)) = Except.ok (b, st') := h
      simp only [Except.ok.injEq, Prod.mk.injEq] at h2
      refine ⟨phv, ctr, rfl, h2.1.symm, ?_⟩
      rw [← h2.1]
      exact h2.2.symm

/-- Inversion for a successful `new_transaction`. -/
theorem new_transaction_ok {s r a : PyVal} {st : BCState} {i : Int} {st' : BCState}
    (h : Blockchain.new_transaction s r a st = Except.ok (i, st')) :
    ∃ last j, st.chain.getLast? = some last ∧
      pyGetItem last "index" = Except.ok (PyVal.int j) ∧
      i = j + 1 ∧ st' = Blockchain.pendingAdd st s r a := by
  simp only [Blockchain.new_transaction, pendingAdd_chain] at h
  split at h
  · exact Except.noConfusion h
  next last hL =>
    split at h
    · exact Except.noConfusion h
    next j hI =>
      simp only [Except.ok.injEq, Prod.mk.injEq] at h
      exact ⟨last, j, hL, hI, h.1.symm, h.2.symm⟩
    next => exact Except.noConfusion h

/-- The last element of a chain extended on the right. -/
theorem getLast?_append_single {α : Type} (l : List α) (a : α) :
    (l ++ [a]).getLast? = some a := List.getLast?_concat l

/-- In every reachable ledger state the chain is nonempty and the last
block's `index` field equals the chain length. -/
theorem reachable_last_index {st : BCState} (h : Reachable st) :
    ∃ b, st.chain.getLast? = some b ∧
      pyGetItem b "index" = Except.ok (PyVal.int (st.chain.length : Int)) := by
  induction h with
  | boot st h0 =>
      have e : Blockchain.init = Except.ok initState := rfl
      rw [e] at h0
      injection h0 with h1
      subst h1
      exact ⟨genesisBlock, rfl, rfl⟩
  | block st p ph b st' _ hnb ih =>
      obtain ⟨phv, ctr, hE, hb, hst⟩ := new_block_ok hnb
      subst hst
      refine ⟨b, ?_, ?_⟩
      · show (st.chain ++ [b]).getLast? = some b
        exact getLast?_append_single st.chain b
      · subst hb
        show pyGetItem (Blockchain.mkBlock st p phv) "index" =
          Except.ok (PyVal.int ((st.chain ++ [Blockchain.mkBlock st p phv]).length : Int))
        have : pyGetItem (Blockchain.mkBlock st p phv) "index" =
            Except.ok (PyVal.int ((st.chain.length : Int) + 1)) := rfl
        rw [this, List.length_append]
        norm_num
  | tx st s r a i st' _ hnt ih =>
      obtain ⟨last, j, hl, hi, hij, hst⟩ := new_transaction_ok hnt
      subst hst
      obtain ⟨b, hb1, hb2⟩ := ih
      exact ⟨b, hb1, hb2⟩

/-! ## Claim theorems -/

/-- C1: the claim says every chain built solely by `new_block` (with
`previous_hash` omitted) on a fresh `Blockchain` satisfies `valid_chain`.
The code refutes it: on a fresh chain, one `new_block(7)` call (default
`previous_hash=None`) yields a two-block chain that `valid_chain` REJECTS,
because `hash` returns a fresh sha256 *object* each call (`.hexdigest()` is
never taken, despite the docstring promising a str), and
`block['previous_hash'] != self.hash(last_block)` compares two distinct
objects by identity.  The second conjunct exhibits the non-string hash
return value. -/
theorem c1_own_chain_rejected :
    (do
      let st0 ← Blockchain.init
      let (_, st1) ← Blockchain.new_block (PyVal.int 7) PyVal.none st0
      let (v, _) ← Blockchain.valid_chain st1.chain st1.counter
      Except.ok v : Except String Bool) = Except.ok false ∧
    Blockchain.hash genesisBlock 0 = Except.ok (PyVal.hashObj 0, 1) :=
  ⟨rfl, rfl⟩

/-- C2: the claim says `hash` is a deterministic digest — hashing the same
block twice yields an identical value.  The code refutes it: `hash` returns
the `hashlib.sha256` object itself (no `.hexdigest()`), so two calls on the
very same block return two distinct objects that compare unequal under
Python `==` (identity). -/
theorem c2_hash_twice_not_equal :
    Blockchain.hash genesisBlock 0 = Except.ok (PyVal.hashObj 0, 1) ∧
    Blockchain.hash genesisBlock 1 = Except.ok (PyVal.hashObj 1, 2) ∧
    pyEq (PyVal.hashObj 0) (PyVal.hashObj 1) = false :=
  ⟨rfl, rfl, rfl⟩

/-- C3: `proof_of_work(last_proof)` returns a proof satisfying
`valid_proof(last_proof, ·)` such that no smaller natural number satisfies
it — the `while` loop starts at 0 and increments by 1, i.e. computes the
least satisfying value.  The hypothesis records the loop's termination
(some satisfying proof exists). -/
theorem c3_proof_of_work_least (last_proof : PyVal)
    (h : ∃ p : Nat, Blockchain.valid_proof last_proof (PyVal.int p) = true) :
    Blockchain.valid_proof last_proof (PyVal.int (Blockchain.proof_of_work last_proof h)) = true ∧
    ∀ q : Nat, q < Blockchain.proof_of_work last_proof h →
      Blockchain.valid_proof last_proof (PyVal.int q) = false := by
  refine ⟨Nat.find_spec h, fun q hq => ?_⟩
  exact Bool.eq_false_iff.mpr (Nat.find_min h hq)

/-- Witness for C3 at `last_proof = 100` (the genesis proof); 35293
satisfies the predicate, so the search terminates. -/
theorem c3_proof_of_work_witness :
    Blockchain.valid_proof (PyVal.int 100)
      (PyVal.int (Blockchain.proof_of_work (PyVal.int 100) ⟨35293, by decide⟩)) = true :=
  (c3_proof_of_work_least (PyVal.int 100) ⟨35293, by decide⟩).1

/-- C4 counterexample: `valid_chain` is NOT total on untrusted input — on
the empty list, `last_block = chain[0]` raises IndexError instead of
returning a boolean. -/
theorem c4_empty_chain_raises :
    Blockchain.valid_chain [] 0 = Except.error "IndexError" := rfl

/-- C4 amended: `valid_chain` raises IndexError on the empty list (and can
raise KeyError/TypeError on blocks missing fields); on a nonempty chain
whose first block is JSON-serializable and whose second block (when
present) is a dict carrying a `previous_hash` value that is not a hash
object — every JSON-decoded peer chain is of this shape — it does return a
boolean: `True` for singletons, and `False` for longer chains, since a
peer-supplied `previous_hash` can never equal the freshly created hash
object. -/
theorem c4_wellformed_input_returns_bool (b0 : PyVal) (entries : List (String × PyVal))
    (rest : List PyVal) (ctr : Nat) (hv phv : PyVal) (ctr' : Nat)
    (hhash : Blockchain.hash b0 ctr = Except.ok (hv, ctr'))
    (hph : lookupKey "previous_hash" entries = some phv)
    (hno : isHashObj phv = false) :
    Blockchain.valid_chain (b0 :: PyVal.dict entries :: rest) ctr = Except.ok (false, ctr') ∧
    ∀ b c, Blockchain.valid_chain [b] c = Except.ok (true, c) := by
  obtain ⟨hhv, hc⟩ := hash_ok hhash
  subst hhv
  subst hc
  refine ⟨?_, fun b c => rfl⟩
  show Blockchain.valid_chain_loop b0 (PyVal.dict entries :: rest) ctr = _
  unfold Blockchain.valid_chain_loop
  simp [pyGetItem, hph, hhash, pyEq_of_not_hashObj ctr hno]

/-- Witness for C4: a fresh node validating a peer chain of two dict
blocks; the check returns `False` without raising. -/
theorem c4_wellformed_input_witness :
    Blockchain.valid_chain (genesisBlock :: PyVal.dict
      [("index", PyVal.int 1),
       ("timestamp", PyVal.int 0),
       ("transactions", PyVal.list []),
       ("proof", PyVal.int 99),
       ("previous_hash", PyVal.str "x")] :: []) 0 = Except.ok (false, 1) ∧
    ∀ b c, Blockchain.valid_chain [b] c = Except.ok (true, c) :=
  c4_wellformed_input_returns_bool genesisBlock _ [] 0 (PyVal.hashObj 0) (PyVal.str "x") 1
    rfl rfl rfl

/-- C5 counterexample: one unreachable peer makes `resolve_conflicts` raise
— `requests.get` is called with no try/except, so a transport-level
exception propagates and aborts resolution even though a reachable peer
(`goodpeer`) offers a valid longer chain. -/
theorem c5_transport_error_propagates :
    Blockchain.resolve_conflicts c5fetch c5state =
      Except.error "requests.exceptions.ConnectionError" := rfl

/-- C5 amended: only peers that *respond* with a non-200 HTTP status are
skipped; with `badpeer` answering 503, resolution continues and adopts the
valid chain reported as longer by `goodpeer`. -/
theorem c5_http_error_skipped :
    Blockchain.resolve_conflicts c5fetchHttp c5state =
      Except.ok (true, { c5state with chain := [peerBlock] }) := rfl

/-- C6: the claim says mining appends exactly one block with the pending
transactions plus the reward.  The code's `mine` handler can never do so:
its first statement reads the undefined global `block_chain` (the instance
is named `blockchain`), so every call raises NameError (and line 169 reads
the undefined `previous_hast`); no block is appended and the pool is not
cleared. -/
theorem c6_mine_raises_nameerror (st : BCState) :
    Blockchain.mine st = Except.error "NameError: name block_chain is not defined" := rfl

/-- C7: in every reachable ledger state, `new_transaction` appends the
transaction dict to the pending pool, leaves the chain unchanged, and
returns `len(chain) + 1`, the index of the block that will eventually
contain it (since the last block's index equals the chain length). -/
theorem c7_new_transaction_index {st : BCState} (hre : Reachable st) (s r a : PyVal) :
    ∃ st', Blockchain.new_transaction s r a st =
        Except.ok ((st.chain.length : Int) + 1, st') ∧
      st'.current_transactions = st.current_transactions ++ [Blockchain.txDict s r a] ∧
      st'.chain = st.chain := by
  obtain ⟨b, hlast, hidx⟩ := reachable_last_index hre
  refine ⟨Blockchain.pendingAdd st s r a, ?_, rfl, rfl⟩
  simp [Blockchain.new_transaction, pendingAdd_chain, hlast, hidx]

/-- Witness for C7 on the freshly constructed state: submitting
`("a", "b", 5)` returns index 2 and queues the transaction. -/
theorem c7_new_transaction_witness :
    ∃ st', Blockchain.new_transaction (PyVal.str "a") (PyVal.str "b") (PyVal.int 5) initState =
        Except.ok ((initState.chain.length : Int) + 1, st') ∧
      st'.current_transactions = initState.current_transactions ++
        [Blockchain.txDict (PyVal.str "a") (PyVal.str "b") (PyVal.int 5)] ∧
      st'.chain = initState.chain :=
  c7_new_transaction_index (Reachable.boot initState rfl) (PyVal.str "a") (PyVal.str "b")
    (PyVal.int 5)

/-- C8: `new_block` treats any falsy `previous_hash` as absent — `0` and
`""` both make `previous_hash or self.hash(self.chain[-1])` evaluate the
hash of the last block, which is what the block stores; a truthy supplied
value is stored as given. -/
theorem c8_falsy_previous_hash_hashes_last (p phv : PyVal) (st : BCState)
    (last hv : PyVal) (ctr' : Nat)
    (hlast : st.chain.getLast? = some last)
    (hhash : Blockchain.hash last st.counter = Except.ok (hv, ctr'))
    (htruthy : pyTruthy phv = true) :
    (∃ b st', Blockchain.new_block p (PyVal.int 0) st = Except.ok (b, st') ∧
        pyGetItem b "previous_hash" = Except.ok hv) ∧
    (∃ b st', Blockchain.new_block p (PyVal.str "") st = Except.ok (b, st') ∧
        pyGetItem b "previous_hash" = Except.ok hv) ∧
    (∃ b st', Blockchain.new_block p phv st = Except.ok (b, st') ∧
        pyGetItem b "previous_hash" = Except.ok phv) := by
  have h0 : Blockchain.prevHashOf (PyVal.int 0) st = Except.ok (hv, ctr') := by
    rw [prevHashOf_falsy (show pyTruthy (PyVal.int 0) = false from rfl) hlast, hhash]
  have hs : Blockchain.prevHashOf (PyVal.str "") st = Except.ok (hv, ctr') := by
    rw [prevHashOf_falsy (show pyTruthy (PyVal.str "") = false from rfl) hlast, hhash]
  have ht : Blockchain.prevHashOf phv st = Except.ok (phv, st.counter) :=
    prevHashOf_truthy htruthy
  refine ⟨⟨Blockchain.mkBlock st p hv,
            Blockchain.postState st (Blockchain.mkBlock st p hv) ctr', ?_, rfl⟩,
          ⟨Blockchain.mkBlock st p hv,
            Blockchain.postState st (Blockchain.mkBlock st p hv) ctr', ?_, rfl⟩,
          ⟨Blockchain.mkBlock st p phv,
            Blockchain.postState st (Blockchain.mkBlock st p phv) st.counter, ?_, rfl⟩⟩
  · simp [Blockchain.new_block, h0]
  · simp [Blockchain.new_block, hs]
  · simp [Blockchain.new_block, ht]

/-- Witness for C8 on the freshly constructed state: with the genesis block
last, `previous_hash=0` and `previous_hash=""` store the fresh hash object
of the genesis block, while the truthy string "given" is stored as is. -/
theorem c8_falsy_previous_hash_witness :
    (∃ b st', Blockchain.new_block (PyVal.int 7) (PyVal.int 0) initState = Except.ok (b, st') ∧
        pyGetItem b "previous_hash" = Except.ok (PyVal.hashObj 0)) ∧
    (∃ b st', Blockchain.new_block (PyVal.int 7) (PyVal.str "") initState = Except.ok (b, st') ∧
        pyGetItem b "previous_hash" = Except.ok (PyVal.hashObj 0)) ∧
    (∃ b st', Blockchain.new_block (PyVal.int 7) (PyVal.str "given") initState =
        Except.ok (b, st') ∧
        pyGetItem b "previous_hash" = Except.ok (PyVal.str "given")) :=
  c8_falsy_previous_hash_hashes_last (PyVal.int 7) (PyVal.str "given") initState
    genesisBlock (PyVal.hashObj 0) 1 rfl rfl rfl

/-- C9: `resolve_conflicts` trusts the peer-reported `length` field rather
than counting the fetched chain: a peer reporting `length=5` for a valid
one-block chain makes a node whose local chain also has one block adopt
the peer chain — replacement by a chain that is not strictly longer. -/
theorem c9_reported_length_governs :
    Blockchain.resolve_conflicts c9fetch c9state =
      Except.ok (true, { c9state with chain := [peerBlock] }) ∧
    [peerBlock].length ≤ c9state.chain.length :=
  ⟨rfl, by decide⟩

/-- C10: `register_node` stores only the parsed netloc: any address without
a `//`-prefixed authority (such as `localhost:5000`, whose `localhost:`
parses as a scheme) contributes the empty string to the peer set, and
registering the same address again leaves the state unchanged (the set
deduplicates). -/
theorem c10_register_node_netloc (addr : String) (st : BCState)
    (hnet : urlparseNetloc addr = "") :
    ("" ∈ (Blockchain.register_node addr st).nodes) ∧
    Blockchain.register_node addr (Blockchain.register_node addr st) =
      Blockchain.register_node addr st := by
  unfold Blockchain.register_node
  rw [hnet]
  by_cases hc : st.nodes.contains ""
  · simp only [hc, if_true]
    refine ⟨?_, by simp [hc]⟩
    simp at hc
    exact hc
  · simp only [hc, if_false]
    have hmem : "" ∈ st.nodes ++ [""] :=
      List.mem_append_right _ (List.mem_singleton.mpr rfl)
    have hcc : (st.nodes ++ [""]).contains "" = true := by simp
    exact ⟨hmem, by simp [hcc]⟩

/-- Witness for C10 at `localhost:5000` on a fresh node: the peer set ends
up holding the empty string, once. -/
theorem c10_register_node_witness :
    ("" ∈ (Blockchain.register_node "localhost:5000" initState).nodes) ∧
    Blockchain.register_node "localhost:5000"
        (Blockchain.register_node "localhost:5000" initState) =
      Blockchain.register_node "localhost:5000" initState :=
  c10_register_node_netloc "localhost:5000" initState rfl
